import Mathlib

/-!
Verification of the Foyer XML writer (`foyer/xml_writer.py`).

The development shallowly embeds the writer's data model and operations:

* Python floats are idealized as exact rationals (`ℚ`); the one place the
  source takes a square root (`_infer_lj14scale`) is modelled over the
  reals with `Real.sqrt`.
* `numpy.pi` is the double-precision constant, modelled by its shortest
  decimal representation `3.141592653589793`.
* Python's `round(x, n)` and `numpy.round(x, n)` both round to the nearest
  multiple of `10 ^ (-n)` with ties going to the even multiple; this is
  modelled exactly over the rationals by `pyRound`.
* Python's `sorted` is a stable sort; over a linearly ordered type every
  sort agrees, so it is modelled by `List.insertionSort (· ≤ ·)`.
* `lxml` element trees are modelled twice, matching how the source uses
  them: the emitters produce elements whose attribute values are still
  typed (string / rational / integer / real), while the deduplication
  pass (`_remove_duplicate_elements`, `_elements_equal`) operates on the
  final tree whose attribute values are all strings (everything is
  `str()`-formatted by the time that pass runs).
-/

namespace Foyer

/-- `numpy.pi` as the shortest decimal representation of the double. -/
def npPi : ℚ := 3.141592653589793

/-- Round a rational to the nearest integer, ties to the even integer.
This is the tie-breaking rule of Python's `round` and `numpy.round`. -/
def roundHalfToEven (x : ℚ) : ℤ :=
  if Int.fract x = 1 / 2 then 2 * round (x / 2) else round x

/-- Python's `round(x, n)` / `numpy.round(x, n)` over exact rationals. -/
def pyRound (x : ℚ) (n : ℕ) : ℚ :=
  ((roundHalfToEven (x * 10 ^ n) : ℤ) : ℚ) / 10 ^ n

/-- `numpy.isclose(a, b)` with the default tolerances
`rtol = 1e-5`, `atol = 1e-8` (finite arguments): `|a - b| ≤ atol + rtol * |b|`. -/
def npIsClose (a b : ℚ) : Bool :=
  |a - b| ≤ 1e-8 + 1e-5 * |b|

/-- Lexicographic comparison of character lists by code point: Python's
`<` on strings. -/
def dataLt : List Char → List Char → Bool
  | _, [] => false
  | [], _ :: _ => true
  | a :: as, b :: bs =>
    if a < b then true else if b < a then false else dataLt as bs

/-- Python's `a < b` on strings. -/
def pyStrLt (a b : String) : Bool := dataLt a.data b.data

/-- Python's `a > b` on strings (as in `atypes[0] > atypes[-1]`). -/
def pyStrGt (a b : String) : Bool := pyStrLt b a

/-- Python's `a <= b` on strings. -/
def pyStrLe (a b : String) : Bool := !(pyStrLt b a)

/-- Python's `sorted` on a list of strings (stable; over a linear order any
sorting algorithm returns the same list, so insertion sort models it). -/
def pySorted (l : List String) : List String :=
  List.insertionSort (fun a b => pyStrLe a b = true) l

/-- Python's `sorted` / `numpy.unique`'s sorting on a list of rationals. -/
def pySortedQ (l : List ℚ) : List ℚ :=
  List.insertionSort (· ≤ ·) l

/-! ### Input data model (the ParmEd entities the writer reads) -/

/-- A ParmEd `AtomType`: identity plus nonbonded parameters. -/
structure AtomType where
  name : String
  sigma : ℚ
  epsilon : ℚ
deriving DecidableEq

/-- A ParmEd `Atom`.  `type` is the atom-type name string that the bonded
term writers read (`atom.type`); `atom_type` is the full type object. -/
structure Atom where
  atom_type : AtomType
  type : String
  idx : ℤ
  mass : ℚ
  charge : ℚ
deriving DecidableEq

/-- A ParmEd `BondType` (`req` in Å, `k` in kcal/mol/Å²). -/
structure BondType where
  req : ℚ
  k : ℚ
deriving DecidableEq

/-- A ParmEd `Bond`; `type` is `None` on an unparametrized bond. -/
structure Bond where
  atom1 : Atom
  atom2 : Atom
  type : Option BondType
deriving DecidableEq

/-- A ParmEd `AngleType` (`theteq` in degrees, `k` in kcal/mol/rad²). -/
structure AngleType where
  theteq : ℚ
  k : ℚ
deriving DecidableEq

/-- A ParmEd `Angle`. -/
structure Angle where
  atom1 : Atom
  atom2 : Atom
  atom3 : Atom
  type : Option AngleType
deriving DecidableEq

/-- A ParmEd `DihedralType` (`per` an integer periodicity, `phase` in
degrees, `phi_k` in kcal/mol). -/
structure DihedralType where
  per : ℤ
  phase : ℚ
  phi_k : ℚ
deriving DecidableEq

/-- A ParmEd `Dihedral`, with its `improper` flag. -/
structure Dihedral where
  atom1 : Atom
  atom2 : Atom
  atom3 : Atom
  atom4 : Atom
  type : Option DihedralType
  improper : Bool
deriving DecidableEq

/-- A ParmEd `RBTorsionType` (`c0` … `c5` in kcal/mol). -/
structure RBTorsionType where
  c0 : ℚ
  c1 : ℚ
  c2 : ℚ
  c3 : ℚ
  c4 : ℚ
  c5 : ℚ
deriving DecidableEq

/-- A ParmEd `RBTorsion`. -/
structure RBTorsion where
  atom1 : Atom
  atom2 : Atom
  atom3 : Atom
  atom4 : Atom
  type : Option RBTorsionType
deriving DecidableEq

/-- The pairwise type of a 1-4 adjustment (`adj.type`). -/
structure AdjustType where
  sigma : ℚ
  epsilon : ℚ
  chgscale : ℚ
deriving DecidableEq

/-- A ParmEd `NonbondedException` (an entry of `struct.adjusts`). -/
structure Adjust where
  atom1 : Atom
  atom2 : Atom
  type : AdjustType
deriving DecidableEq

/-- The slice of a ParmEd `Structure` that `write_foyer` reads. -/
structure Structure where
  atoms : List Atom
  bonds : List Bond
  angles : List Angle
  dihedrals : List Dihedral
  rb_torsions : List RBTorsion
  adjusts : List Adjust
deriving DecidableEq

/-- The optional Foyer `Forcefield` annotation object: five name-keyed
mappings, each lookup possibly failing (`KeyError`). -/
structure Forcefield where
  atomTypeClasses : String → Option String
  atomTypeElements : String → Option String
  atomTypeDefinitions : String → Option String
  atomTypeDesc : String → Option String
  atomTypeRefs : String → Option String

/-! ### Canonical atom-type tuples (the `atypes` manipulation inside each
emitter of `xml_writer.py`) -/

/-- `_write_bonds`, lines 111–113: `atypes = [bond.atom1.type,
bond.atom2.type]`, sorted in unique mode. -/
def bondAtypes (unique : Bool) (t1 t2 : String) : List String :=
  let atypes := [t1, t2]
  if unique then pySorted atypes else atypes

/-- `_write_angles`, lines 126–131: the end pair `atypes[::2]` is replaced
by `sorted(atypes[::2])` in unique mode; the middle type never moves. -/
def angleAtypes (unique : Bool) (t1 t2 t3 : String) : List String :=
  let atypes := [t1, t2, t3]
  if unique then
    (pySorted [t1, t3]).take 1 ++ [t2] ++ (pySorted [t1, t3]).drop 1
  else atypes

/-- `_write_periodic_torsions`, lines 149–167.  For an improper the swap
`atypes[0], atypes[2] = atypes[2], atypes[0]` happens before (and
regardless of) the `unique` test; in unique mode the tail `atypes[1:]`
is then sorted.  For a proper, in unique mode the whole tuple is
reversed when `atypes[0] > atypes[-1]` (that is, `t1 > t4`). -/
def periodicTorsionAtypes (improper unique : Bool) (t1 t2 t3 t4 : String) :
    List String :=
  let atypes := [t1, t2, t3, t4]
  if improper then
    let atypes := [t3, t2, t1, t4]
    if unique then atypes.take 1 ++ pySorted (atypes.drop 1) else atypes
  else
    if unique then (if pyStrGt t1 t4 then atypes.reverse else atypes) else atypes

/-- `_write_rb_torsions`, lines 184–190: same rule as a proper torsion. -/
def rbTorsionAtypes (unique : Bool) (t1 t2 t3 t4 : String) : List String :=
  let atypes := [t1, t2, t3, t4]
  if unique then (if pyStrGt t1 t4 then atypes.reverse else atypes) else atypes

/-! ### Emitted entries

The emitters build `lxml` elements whose attribute values are all strings.
Since `str` is injective on each Python scalar type, an entry is modelled
with its attribute values still typed, so that the numeric claims can be
stated about the exact values the writer formats. -/

/-- A pre-formatting attribute value: a string, a float (idealized as an
exact rational), an int, or the one real-valued attribute (the LJ 1-4
scale, whose computation involves a square root). -/
inductive AttrVal where
  | s : String → AttrVal
  | q : ℚ → AttrVal
  | z : ℤ → AttrVal
  | r : ℝ → AttrVal

/-- One emitted entry (a leaf element of the output tree). -/
structure FElem where
  tag : String
  attrs : List (String × AttrVal)

/-- One section of the output tree (a direct child of `ForceField`). -/
structure FSection where
  tag : String
  attrs : List (String × AttrVal)
  children : List FElem

/-- The `for id in range(n): elem.set('type{}'.format(id+1), atypes[id])`
loops of the bond/angle/torsion emitters. -/
def typeAttrs (atypes : List String) : List (String × AttrVal) :=
  (List.range atypes.length).map
    fun i => ("type" ++ toString (i + 1), AttrVal.s (atypes.getD i ""))

/-- The `str(eval(...))`-with-exception-suppression lookup of
`_write_atoms` (lines 88–98): `AttributeError` (no forcefield) and
`KeyError` (name absent from the mapping) both yield the empty string. -/
def ffLookup (forcefield : Option Forcefield)
    (f : Forcefield → String → Option String) (name : String) : String :=
  match forcefield with
  | none => ""
  | some ff => (f ff name).getD ""

/-- The `Type` entry of the `AtomTypes` section (`_write_atoms`, lines
74–98).  The mass is written raw (`str(atom.mass)`), with no rounding. -/
def typeEntry (forcefield : Option Forcefield) (atom : Atom) : FElem :=
  { tag := "Type",
    attrs := [
      ("name", AttrVal.s atom.atom_type.name),
      ("class", AttrVal.s
        (ffLookup forcefield Forcefield.atomTypeClasses atom.atom_type.name)),
      ("element", AttrVal.s
        (ffLookup forcefield Forcefield.atomTypeElements atom.atom_type.name)),
      ("mass", AttrVal.q atom.mass),
      ("def", AttrVal.s
        (ffLookup forcefield Forcefield.atomTypeDefinitions atom.atom_type.name)),
      ("desc", AttrVal.s
        (ffLookup forcefield Forcefield.atomTypeDesc atom.atom_type.name)),
      ("doi", AttrVal.s
        (ffLookup forcefield Forcefield.atomTypeRefs atom.atom_type.name))] }

/-- The `Atom` entry of the `NonbondedForce` section (`_write_atoms`,
lines 100–105). -/
def nbEntry (atom : Atom) (unique : Bool) : FElem :=
  { tag := "Atom",
    attrs :=
      (if unique then [] else [("id", AttrVal.z atom.idx)]) ++
      [("type", AttrVal.s atom.atom_type.name),
       ("charge", AttrVal.q (pyRound atom.charge 4)),
       ("sigma", AttrVal.q (pyRound atom.atom_type.sigma 4)),
       ("epsilon", AttrVal.q (pyRound (atom.atom_type.epsilon * 4.184) 6))] }

/-- The numeric attributes of a `Bond` entry (`_write_bonds`, lines
119–120); the bond type is `None` only on unparametrized input, on which
Python would raise (modelled with a zero default, never exercised by the
claims). -/
def bondNumAttrs (bond : Bond) : List (String × AttrVal) :=
  let bt := bond.type.getD ⟨0, 0⟩
  [("length", AttrVal.q (pyRound (bt.req / 10) 4)),
   ("k", AttrVal.q (pyRound (bt.k * 4.184 * 200) 1))]

/-- A `Bond` entry (`_write_bonds`, lines 110–120). -/
def bondEntry (bond : Bond) (unique : Bool) : FElem :=
  { tag := "Bond",
    attrs :=
      (if unique then []
       else [("id1", AttrVal.z bond.atom1.idx), ("id2", AttrVal.z bond.atom2.idx)]) ++
      typeAttrs (bondAtypes unique bond.atom1.type bond.atom2.type) ++
      bondNumAttrs bond }

/-- The numeric attributes of an `Angle` entry (`_write_angles`, lines
138–139). -/
def angleNumAttrs (angle : Angle) : List (String × AttrVal) :=
  let at' := angle.type.getD ⟨0, 0⟩
  [("angle", AttrVal.q (pyRound (at'.theteq * (npPi / 180)) 10)),
   ("k", AttrVal.q (pyRound (at'.k * 4.184 * 2) 3))]

/-- An `Angle` entry (`_write_angles`, lines 125–139). -/
def angleEntry (angle : Angle) (unique : Bool) : FElem :=
  { tag := "Angle",
    attrs :=
      (if unique then []
       else [("id1", AttrVal.z angle.atom1.idx), ("id2", AttrVal.z angle.atom2.idx),
             ("id3", AttrVal.z angle.atom3.idx)]) ++
      typeAttrs (angleAtypes unique angle.atom1.type angle.atom2.type angle.atom3.type) ++
      angleNumAttrs angle }

/-- The numeric attributes of a torsion entry (`_write_periodic_torsions`,
lines 175–178).  The periodicity is written raw (`str(dihedral.type.per)`),
with no rounding. -/
def dihedralNumAttrs (d : Dihedral) : List (String × AttrVal) :=
  let dt := d.type.getD ⟨0, 0, 0⟩
  [("periodicity1", AttrVal.z dt.per),
   ("phase1", AttrVal.q (pyRound (dt.phase * (npPi / 180)) 8)),
   ("k1", AttrVal.q (pyRound (dt.phi_k * 4.184) 3))]

/-- A `Proper`/`Improper` entry (`_write_periodic_torsions`, lines
143–178).  In per-instance mode the improper's indices are emitted in the
swapped order `atom3, atom2, atom1, atom4` (lines 160–163). -/
def dihedralEntry (d : Dihedral) (unique : Bool) : FElem :=
  { tag := if d.improper then "Improper" else "Proper",
    attrs :=
      (if unique then []
       else if d.improper then
         [("id1", AttrVal.z d.atom3.idx), ("id2", AttrVal.z d.atom2.idx),
          ("id3", AttrVal.z d.atom1.idx), ("id4", AttrVal.z d.atom4.idx)]
       else
         [("id1", AttrVal.z d.atom1.idx), ("id2", AttrVal.z d.atom2.idx),
          ("id3", AttrVal.z d.atom3.idx), ("id4", AttrVal.z d.atom4.idx)]) ++
      typeAttrs (periodicTorsionAtypes d.improper unique
        d.atom1.type d.atom2.type d.atom3.type d.atom4.type) ++
      dihedralNumAttrs d }

/-- `getattr(rb_torsion.type, 'c{}'.format(c_id))`. -/
def rbC (t : RBTorsionType) : ℕ → ℚ
  | 0 => t.c0
  | 1 => t.c1
  | 2 => t.c2
  | 3 => t.c3
  | 4 => t.c4
  | _ => t.c5

/-- The numeric attributes of an RB-torsion entry (`_write_rb_torsions`,
lines 198–201). -/
def rbNumAttrs (r : RBTorsion) : List (String × AttrVal) :=
  let rt := r.type.getD ⟨0, 0, 0, 0, 0, 0⟩
  (List.range 6).map
    fun i => ("c" ++ toString i, AttrVal.q (pyRound (rbC rt i * 4.184) 4))

/-- An RB-torsion `Proper` entry (`_write_rb_torsions`, lines 183–201). -/
def rbEntry (r : RBTorsion) (unique : Bool) : FElem :=
  { tag := "Proper",
    attrs :=
      (if unique then []
       else [("id1", AttrVal.z r.atom1.idx), ("id2", AttrVal.z r.atom2.idx),
             ("id3", AttrVal.z r.atom3.idx), ("id4", AttrVal.z r.atom4.idx)]) ++
      typeAttrs (rbTorsionAtypes unique r.atom1.type r.atom2.type r.atom3.type r.atom4.type) ++
      rbNumAttrs r }

/-! ### Scale inference (`_infer_coulomb14scale`, `_infer_lj14scale`) -/

/-- The `ValueError`s the writer can raise (plus the initial
unparametrized-structure check of `write_foyer`).  Each error carries the
data interpolated into the corresponding message. -/
inductive WriteError where
  | unparametrized : WriteError
  | coulombInconsistent : WriteError
  | sigmaMismatch : Adjust → ℚ → ℚ → WriteError
  | ljInconsistent : List ℚ → WriteError
deriving DecidableEq

/-- `_infer_coulomb14scale` (lines 238–250): collect every adjustment's
`chgscale`; succeed with the first one exactly when the set of distinct
values has size 1. -/
def _infer_coulomb14scale (struct : Structure) : Except WriteError ℚ :=
  let coul14 := struct.adjusts.map fun t => t.type.chgscale
  if coul14.dedup.length = 1 then .ok (coul14.headD 0)
  else .error .coulombInconsistent

/-- The Lorentz–Berthelot expected sigma of an adjustment,
`(type1.sigma + type2.sigma) * 0.5` (line 261). -/
def expectedSigma (adj : Adjust) : ℚ :=
  (adj.atom1.atom_type.sigma + adj.atom2.atom_type.sigma) * (1 / 2)

/-- The per-pair LJ 1-4 scale `adj.type.epsilon / expected_epsilon` with
`expected_epsilon = (type1.epsilon * type2.epsilon) ** 0.5`
(lines 262 and 271); the float square root is idealized as `Real.sqrt`. -/
noncomputable def ljPairScale (adj : Adjust) : ℝ :=
  (adj.type.epsilon : ℝ) /
    Real.sqrt ((adj.atom1.atom_type.epsilon : ℝ) * (adj.atom2.atom_type.epsilon : ℝ))

/-- `numpy.round(x, 8)` on the real-valued per-pair scales. -/
noncomputable def npRound8 (x : ℝ) : ℚ :=
  ((if Int.fract (x * 10 ^ 8) = 1 / 2 then 2 * round (x * 10 ^ 8 / 2)
    else round (x * 10 ^ 8) : ℤ) : ℚ) / 10 ^ 8

/-- The `for adj in struct.adjusts` loop of `_infer_lj14scale` (lines
258–271): the first adjustment whose stored sigma is not `numpy.isclose`
to the Lorentz–Berthelot expectation raises; otherwise the per-pair
scales are collected in order. -/
noncomputable def lj14scaleAux : List Adjust → Except WriteError (List ℝ)
  | [] => .ok []
  | adj :: rest =>
    if npIsClose adj.type.sigma (expectedSigma adj) = false then
      .error (.sigmaMismatch adj adj.type.sigma (expectedSigma adj))
    else
      match lj14scaleAux rest with
      | .error e => .error e
      | .ok scales => .ok (ljPairScale adj :: scales)

/-- `_infer_lj14scale` (lines 252–281): after the loop,
`numpy.unique(numpy.array(lj14scale).round(8))` (sorted distinct rounded
scales); succeed with the first unrounded scale exactly when there is one
distinct rounded value. -/
noncomputable def _infer_lj14scale (struct : Structure) : Except WriteError ℝ :=
  match lj14scaleAux struct.adjusts with
  | .error e => .error e
  | .ok lj14scale =>
    let unique_lj14_scales := pySortedQ (lj14scale.map npRound8).dedup
    if unique_lj14_scales.length = 1 then .ok (lj14scale.headD 0)
    else .error (.ljInconsistent unique_lj14_scales)

/-! ### Document assembly (`write_foyer`) -/

/-- The guard `len(terms) > 0 and terms[0].type is not None` used at lines
49 and 55–61 (the `and` is short-circuiting, so `terms[0]` is only read on
a non-empty list). -/
def firstHasType {α β : Type} (terms : List α) (getType : α → Option β) : Bool :=
  match terms.head? with
  | none => false
  | some t => (getType t).isSome

/-- The parametrization precondition of `write_foyer` (line 49). -/
def isParametrized (s : Structure) : Bool :=
  firstHasType s.bonds Bond.type

/-- `_write_atoms` (lines 69–105): infer both 1-4 scales (Coulomb first —
its error surfaces first), then build the `AtomTypes` and
`NonbondedForce` sections.  The two scale attributes are written raw. -/
noncomputable def _write_atoms (s : Structure) (forcefield : Option Forcefield)
    (unique : Bool) : Except WriteError (FSection × FSection) :=
  match _infer_coulomb14scale s with
  | .error e => .error e
  | .ok coulomb =>
    match _infer_lj14scale s with
    | .error e => .error e
    | .ok lj =>
      .ok ({ tag := "AtomTypes", attrs := [],
             children := s.atoms.map (typeEntry forcefield) },
           { tag := "NonbondedForce",
             attrs := [("coulomb14scale", AttrVal.q coulomb),
                       ("lj14scale", AttrVal.r lj)],
             children := s.atoms.map fun a => nbEntry a unique })

/-- `_write_bonds` (lines 107–120) as a whole section. -/
def _write_bonds (bonds : List Bond) (unique : Bool) : FSection :=
  { tag := "HarmonicBondForce", attrs := [],
    children := bonds.map fun b => bondEntry b unique }

/-- `_write_angles` (lines 122–139) as a whole section. -/
def _write_angles (angles : List Angle) (unique : Bool) : FSection :=
  { tag := "HarmonicAngleForce", attrs := [],
    children := angles.map fun a => angleEntry a unique }

/-- `_write_periodic_torsions` (lines 141–178) as a whole section. -/
def _write_periodic_torsions (dihedrals : List Dihedral) (unique : Bool) : FSection :=
  { tag := "PeriodicTorsionForce", attrs := [],
    children := dihedrals.map fun d => dihedralEntry d unique }

/-- `_write_rb_torsions` (lines 180–201) as a whole section. -/
def _write_rb_torsions (rb_torsions : List RBTorsion) (unique : Bool) : FSection :=
  { tag := "RBTorsionForce", attrs := [],
    children := rb_torsions.map fun r => rbEntry r unique }

/-- `write_foyer` (lines 9–66) up to the construction of the section list:
the unparametrized check runs before the root is created; then the
sections are emitted in a fixed order behind their guards.  The final
`_remove_duplicate_elements` pass and the file serialization act on the
string-formatted tree and are modelled separately below. -/
noncomputable def write_foyer (s : Structure) (forcefield : Option Forcefield)
    (unique : Bool) : Except WriteError (List FSection) :=
  if isParametrized s = false then .error .unparametrized
  else
    match _write_atoms s forcefield unique with
    | .error e => .error e
    | .ok (atomtypes, nonbonded) =>
      .ok ([atomtypes, nonbonded]
        ++ (if firstHasType s.bonds Bond.type then
              [_write_bonds s.bonds unique] else [])
        ++ (if firstHasType s.angles Angle.type then
              [_write_angles s.angles unique] else [])
        ++ (if firstHasType s.dihedrals Dihedral.type then
              [_write_periodic_torsions s.dihedrals unique] else [])
        ++ (if firstHasType s.rb_torsions RBTorsion.type then
              [_write_rb_torsions s.rb_torsions unique] else []))

/-! ### Deduplication (`_remove_duplicate_elements`, `_elements_equal`)

This pass runs on the assembled `lxml` tree, in which every attribute
value has already been `str()`-formatted, so its elements carry plain
string attributes. -/

/-- An `lxml` element as the deduplicator sees it: tag, text, tail, an
attribute dictionary (keys unique), and children. -/
inductive XmlElem where
  | mk : (tag : String) → (text : Option String) → (tail : Option String) →
      (attrib : List (String × String)) → (children : List XmlElem) → XmlElem

/-- The element's tag. -/
def XmlElem.tag : XmlElem → String
  | .mk t _ _ _ _ => t

/-- The element's attribute dictionary. -/
def XmlElem.attrib : XmlElem → List (String × String)
  | .mk _ _ _ a _ => a

/-- The element's children. -/
def XmlElem.children : XmlElem → List XmlElem
  | .mk _ _ _ _ c => c

/-- Replace the element's child list (the slice assignment
`child[:] = sorted(...)` / `child.remove(...)`). -/
def XmlElem.withChildren : XmlElem → List XmlElem → XmlElem
  | .mk t x l a _, c => .mk t x l a c

/-- Python dictionary equality on attribute dictionaries (`e1.attrib !=
e2.attrib`): the same keys mapped to the same values, order-insensitive. -/
def dictEq (a b : List (String × String)) : Bool :=
  a.all (fun kv => b.lookup kv.1 == some kv.2) &&
    b.all (fun kv => a.lookup kv.1 == some kv.2)

mutual

/-- `_elements_equal` (lines 225–236) on two genuine elements.  Line 231
of the source reads `if e1.tag != e1.tag: return False` — it compares
`e1`'s tag against itself, so the tag of `e2` is never inspected and
differing tags do not make the comparison fail. -/
def elementsEqualSome : XmlElem → XmlElem → Bool
  | .mk t1 x1 l1 a1 c1, .mk _t2 x2 l2 a2 c2 =>
    if t1 != t1 then false
    else if x1 != x2 then false
    else if l1 != l2 then false
    else if !dictEq a1 a2 then false
    else if c1.length != c2.length then false
    else elementsEqualChildren c1 c2

/-- `all([_elements_equal(c1, c2) for c1, c2 in zip(e1, e2)])`; the zip
stops at the shorter list (the lengths were already checked equal). -/
def elementsEqualChildren : List XmlElem → List XmlElem → Bool
  | c1 :: cs1, c2 :: cs2 => elementsEqualSome c1 c2 && elementsEqualChildren cs1 cs2
  | _, _ => true

end

/-- `_elements_equal(elem, prev)` where `prev` may still be `None`: then
`type(e1) != type(e2)` holds and the comparison is `False`. -/
def _elements_equal (e1 : XmlElem) (e2 : Option XmlElem) : Bool :=
  match e2 with
  | none => false
  | some e2 => elementsEqualSome e1 e2

/-- The `sortby` table of `_remove_duplicate_elements` (lines 204–209).
On any other tag the source would raise `KeyError`; no tree built by this
writer contains another tag. -/
def sortKeyAttrs : String → List String
  | "AtomTypes" => ["name"]
  | "HarmonicBondForce" => ["type1", "type2"]
  | "HarmonicAngleForce" => ["type1", "type2", "type3"]
  | "PeriodicTorsionForce" => ["type1", "type2", "type3", "type4"]
  | "RBTorsionForce" => ["type1", "type2", "type3", "type4"]
  | "NonbondedForce" => ["type"]
  | _ => []

/-- `tuple(elem.get(id) for id in sortby[child.tag])`: the sort key of one
entry (`elem.get` is `None` on a missing attribute). -/
def sectionKey (tag : String) (e : XmlElem) : List (Option String) :=
  (sortKeyAttrs tag).map fun k => e.attrib.lookup k

/-- Python's tuple comparison on sort keys, lexicographically.  Comparing
`None` with a string would raise `TypeError` in Python; that case is
given an arbitrary order here and is exercised by no tree this writer
builds (all sort attributes are present) nor by any singleton section. -/
def keyLe : List (Option String) → List (Option String) → Bool
  | [], _ => true
  | _ :: _, [] => false
  | a :: as, b :: bs =>
    if a = b then keyLe as bs
    else
      match a, b with
      | none, _ => true
      | some x, some y => pyStrLt x y
      | some _, none => false

/-- `child[:] = sorted(child, key=...)` (lines 214–215): Python's stable
sort, modelled by insertion sort. -/
def sortChildren (c : XmlElem) : List XmlElem :=
  List.insertionSort
    (fun x y => keyLe (sectionKey c.tag x) (sectionKey c.tag y) = true) c.children

/-- The scan of lines 216–223: each entry structurally equal to `prev` is
marked for removal (and `prev` is left unchanged); otherwise it becomes
the new `prev`.  Collecting the marked entries and then removing each by
identity (`child.remove`) is the same as keeping the unmarked ones in
order, which is what this single pass computes, together with the final
value of `prev`. -/
def dedupScan : Option XmlElem → List XmlElem → List XmlElem × Option XmlElem
  | prev, [] => ([], prev)
  | prev, e :: es =>
    if _elements_equal e prev then dedupScan prev es
    else ((e :: (dedupScan (some e) es).1), (dedupScan (some e) es).2)

/-- The `for child in root` loop of `_remove_duplicate_elements` (lines
210–223).  `prev` starts as `None` once, before the loop, and is *not*
reset between sections: its value is threaded from one processed section
into the next.  In non-unique mode every section except `AtomTypes` is
skipped (`continue`), leaving both the section and `prev` untouched. -/
def processSections (unique : Bool) : Option XmlElem → List XmlElem → List XmlElem
  | _, [] => []
  | prev, child :: rest =>
    if unique = false ∧ child.tag ≠ "AtomTypes" then
      child :: processSections unique prev rest
    else
      (child.withChildren (dedupScan prev (sortChildren child)).1) ::
        processSections unique (dedupScan prev (sortChildren child)).2 rest

/-- `_remove_duplicate_elements` (lines 203–223). -/
def _remove_duplicate_elements (root : XmlElem) (unique : Bool) : XmlElem :=
  root.withChildren (processSections unique none root.children)

/-- Modelled from the spec (§4.5 and §9): the per-section-scoped variant
of the dedup pass, in which the "last kept entry" reference is reset at
the start of every section's scan. -/
def processSectionsScoped (unique : Bool) : List XmlElem → List XmlElem
  | [] => []
  | child :: rest =>
    if unique = false ∧ child.tag ≠ "AtomTypes" then
      child :: processSectionsScoped unique rest
    else
      (child.withChildren (dedupScan none (sortChildren child)).1) ::
        processSectionsScoped unique rest

/-- Modelled from the spec: `_remove_duplicate_elements` with the
per-section reset the spec prescribes. -/
def removeDuplicatesScoped (root : XmlElem) (unique : Bool) : XmlElem :=
  root.withChildren (processSectionsScoped unique root.children)

/-- No two entries of two *different* sections are structurally equal
(under the source's `_elements_equal`).  This holds of every tree the
writer emits, because entries of different sections carry different
attribute-key sets. -/
def crossDisjoint : List XmlElem → Bool
  | [] => true
  | c :: rest =>
    rest.all (fun c' => c.children.all fun e =>
      c'.children.all fun e' => !elementsEqualSome e' e) &&
    crossDisjoint rest

/-! ### The claims as stated (the forms the counterexamples refute) -/

/-- Claim C1 as stated: in unique mode the canonical type tuple is
invariant under reading the term's tuple in reversed order, for every
bond, angle, proper torsion and RB torsion, for all type names. -/
def C1Statement : Prop :=
  (∀ t1 t2 : String, bondAtypes true t1 t2 = bondAtypes true t2 t1) ∧
  (∀ t1 t2 t3 : String, angleAtypes true t1 t2 t3 = angleAtypes true t3 t2 t1) ∧
  (∀ t1 t2 t3 t4 : String,
    periodicTorsionAtypes false true t1 t2 t3 t4 =
      periodicTorsionAtypes false true t4 t3 t2 t1) ∧
  (∀ t1 t2 t3 t4 : String,
    rbTorsionAtypes true t1 t2 t3 t4 = rbTorsionAtypes true t4 t3 t2 t1)

/-- Claim C3 as stated: the deduplication pass behaves as if the "last
kept entry" reference were reset at the start of every section. -/
def C3Statement : Prop :=
  ∀ (root : XmlElem) (unique : Bool),
    _remove_duplicate_elements root unique = removeDuplicatesScoped root unique

/-- A rational is fixed by the round step of some row of the §4.1 table
(the distinct precisions of the table are 1, 3, 4, 6, 8, 10). -/
def qAttrRoundedAtTable (v : ℚ) : Prop :=
  pyRound v 1 = v ∨ pyRound v 3 = v ∨ pyRound v 4 = v ∨ pyRound v 6 = v ∨
    pyRound v 8 = v ∨ pyRound v 10 = v

/-- Every float-valued attribute of the entry is fixed by one of the
table's round steps — a necessary condition for having been written
through the §4.1 transform-and-round table. -/
def qAttrsRounded (e : FElem) : Prop :=
  ∀ kv ∈ e.attrs, ∀ v : ℚ, kv.2 = AttrVal.q v → qAttrRoundedAtTable v

/-- Claim C7 as stated (its refutable core): every float-valued attribute
of every emitted entry went through the table's transform-and-round. -/
def C7Statement : Prop :=
  ∀ (ff : Option Forcefield) (a : Atom) (b : Bond) (an : Angle)
    (d : Dihedral) (r : RBTorsion) (u : Bool),
    qAttrsRounded (typeEntry ff a) ∧ qAttrsRounded (nbEntry a u) ∧
    qAttrsRounded (bondEntry b u) ∧ qAttrsRounded (angleEntry an u) ∧
    qAttrsRounded (dihedralEntry d u) ∧ qAttrsRounded (rbEntry r u)

/-- Claim C8 as stated: in per-instance mode every kind of term —
impropers included — keeps its original type order, and the id
attributes carry the term's atom indices in their original order. -/
def C8Statement : Prop :=
  (∀ t1 t2 : String, bondAtypes false t1 t2 = [t1, t2]) ∧
  (∀ t1 t2 t3 : String, angleAtypes false t1 t2 t3 = [t1, t2, t3]) ∧
  (∀ (improper : Bool) (t1 t2 t3 t4 : String),
    periodicTorsionAtypes improper false t1 t2 t3 t4 = [t1, t2, t3, t4]) ∧
  (∀ t1 t2 t3 t4 : String,
    rbTorsionAtypes false t1 t2 t3 t4 = [t1, t2, t3, t4]) ∧
  (∀ d : Dihedral,
    ((dihedralEntry d false).attrs).lookup "id1" = some (AttrVal.z d.atom1.idx))

/-! ### Concrete fixtures for witnesses and counterexamples -/

/-- An atom whose type is named `t`, with index `i` and unit parameters. -/
def atomNamed (t : String) (i : ℤ) : Atom :=
  ⟨⟨t, 1, 1⟩, t, i, 1, 0⟩

/-- The improper torsion of the spec's scenario: atom order `(H, N, C, O)`
with atom3 the central atom. -/
def d0 : Dihedral :=
  ⟨atomNamed "H" 0, atomNamed "N" 1, atomNamed "C" 2, atomNamed "O" 3,
   some ⟨1, 0, 0⟩, true⟩

/-- The same four atoms as a proper torsion. -/
def d0proper : Dihedral :=
  ⟨atomNamed "H" 0, atomNamed "N" 1, atomNamed "C" 2, atomNamed "O" 3,
   some ⟨1, 0, 0⟩, false⟩

/-- A structure with one well-formed 1-4 adjustment: both atom types have
`sigma = 1` and `epsilon = 1`, the stored sigma is the Lorentz–Berthelot
mean `1`, and the stored epsilon is `1`. -/
def s5 : Structure :=
  ⟨[], [], [], [], [], [⟨atomNamed "A" 0, atomNamed "B" 1, ⟨1, 1, 1/2⟩⟩]⟩

/-- An adjustment between unit-parameter atoms with charge scale `c`. -/
def adjChg (c : ℚ) : Adjust :=
  ⟨atomNamed "A" 0, atomNamed "B" 1, ⟨1, 1, c⟩⟩

/-- The spec's inconsistent-Coulomb scenario: charge scales
`{0.5, 0.5, 0.83}`. -/
def s6 : Structure :=
  ⟨[], [], [], [], [], [adjChg 0.5, adjChg 0.5, adjChg 0.83]⟩

/-- A topology with no bonds at all. -/
def s9 : Structure := ⟨[], [], [], [], [], []⟩

/-- One parametrized bond. -/
def b10 : Bond := ⟨atomNamed "A" 0, atomNamed "B" 1, some ⟨1, 1⟩⟩

/-- A parametrized topology with zero 1-4 adjustments. -/
def s10 : Structure := ⟨[], [b10], [], [], [], []⟩

/-- One parametrized angle. -/
def a7 : Angle := ⟨atomNamed "A" 0, atomNamed "B" 1, atomNamed "C" 2, some ⟨1, 1⟩⟩

/-- One parametrized RB torsion. -/
def r7 : RBTorsion :=
  ⟨atomNamed "A" 0, atomNamed "B" 1, atomNamed "C" 2, atomNamed "D" 3,
   some ⟨1, 1, 1, 1, 1, 1⟩⟩

/-- An atom whose mass `10 ^ (-11)` is not a fixed point of the round step
of any row of the §4.1 table. -/
def atomM : Atom := ⟨⟨"opls_1", 1, 1⟩, "opls_1", 0, 1 / 10 ^ 11, 0⟩

/-- A dedup entry with attributes `type1="A", type2="B"`. -/
def entryAB : XmlElem := .mk "Bond" none none [("type1", "A"), ("type2", "B")] []

/-- A dedup entry with a third attribute, structurally different from
`entryAB`. -/
def entryABC : XmlElem :=
  .mk "Angle" none none [("type1", "A"), ("type2", "B"), ("type3", "C")] []

/-- A tree whose two sections hold structurally identical entries: the
carried-over `prev` makes the pass drop the second section's only entry. -/
def badRoot : XmlElem :=
  .mk "ForceField" none none []
    [.mk "HarmonicBondForce" none none [] [entryAB],
     .mk "HarmonicAngleForce" none none [] [entryAB]]

/-- A tree whose two sections hold structurally different entries. -/
def goodRoot : XmlElem :=
  .mk "ForceField" none none []
    [.mk "HarmonicBondForce" none none [] [entryAB],
     .mk "HarmonicAngleForce" none none [] [entryABC]]

/-! ## Theorems -/

/-! ### The Python string order -/

theorem dataLt_asymm (x y : List Char) (h : dataLt x y = true) :
    dataLt y x = false := by
  induction x generalizing y with
  | nil =>
    cases y with
    | nil => simp [dataLt] at h
    | cons b bs => simp [dataLt]
  | cons a as ih =>
    cases y with
    | nil => simp [dataLt] at h
    | cons b bs =>
      simp only [dataLt] at h ⊢
      by_cases hab : a < b
      · simp [hab, lt_asymm hab]
      · by_cases hba : b < a
        · simp [hab, hba] at h
        · simp [hab, hba] at h ⊢
          exact ih bs h

theorem dataLt_conn (x y : List Char) (h1 : dataLt x y = false)
    (h2 : dataLt y x = false) : x = y := by
  induction x generalizing y with
  | nil =>
    cases y with
    | nil => rfl
    | cons b bs => simp [dataLt] at h1
  | cons a as ih =>
    cases y with
    | nil => simp [dataLt] at h2
    | cons b bs =>
      simp only [dataLt] at h1 h2
      by_cases hab : a < b
      · simp [hab] at h1
      · by_cases hba : b < a
        · simp [hba] at h2
        · simp [hab, hba] at h1 h2
          have hc : a = b := le_antisymm (le_of_not_lt hba) (le_of_not_lt hab)
          rw [hc, ih bs h1 h2]

theorem pyStrLt_asymm {a b : String} (h : pyStrLt a b = true) :
    pyStrLt b a = false :=
  dataLt_asymm a.data b.data h

theorem pyStr_eq_of_not_lt {a b : String} (h1 : pyStrLt a b = false)
    (h2 : pyStrLt b a = false) : a = b := by
  cases a with
  | mk da =>
    cases b with
    | mk db => rw [dataLt_conn da db h1 h2]

theorem pyStrLt_total_of_ne {a b : String} (h : a ≠ b) :
    pyStrLt a b = true ∨ pyStrLt b a = true := by
  by_cases h1 : pyStrLt a b = true
  · exact Or.inl h1
  · by_cases h2 : pyStrLt b a = true
    · exact Or.inr h2
    · exact absurd
        (pyStr_eq_of_not_lt (by simpa using h1) (by simpa using h2)) h

theorem pySorted_pair (a b : String) :
    pySorted [a, b] = if pyStrLe a b = true then [a, b] else [b, a] := by
  simp [pySorted, List.insertionSort, List.orderedInsert]

theorem pySorted_pair_comm (a b : String) : pySorted [a, b] = pySorted [b, a] := by
  rw [pySorted_pair, pySorted_pair]
  by_cases h1 : pyStrLt b a = true
  · have h2 : pyStrLt a b = false := pyStrLt_asymm h1
    simp [pyStrLe, h1, h2]
  · have h1' : pyStrLt b a = false := by simpa using h1
    by_cases h2 : pyStrLt a b = true
    · simp [pyStrLe, h1', h2]
    · have h2' : pyStrLt a b = false := by simpa using h2
      rw [pyStr_eq_of_not_lt h2' h1']

/-! ### C1: canonical-key symmetry -/

/-- C1, counterexample: the claim as stated fails on the code.  For the
proper-torsion tuple `(A, B, C, A)` — first and last type equal, interior
types different — the forward read canonicalizes to `(A, B, C, A)` but the
reversed read `(A, C, B, A)` canonicalizes to itself, a different tuple,
because the writer only compares the outer pair. -/
theorem c1_counterexample : ¬ C1Statement := fun h =>
  absurd (h.2.2.1 "A" "B" "C" "A") (by decide)

/-- C1, amended: canonicalizing forward and reversed reads agrees for
every bond and every angle, and for proper and RB torsions whenever the
first and last atom types differ (when they coincide and the interior
types differ, the two reads yield two distinct, mutually reversed
tuples). -/
theorem c1_amended :
    (∀ t1 t2 : String, bondAtypes true t1 t2 = bondAtypes true t2 t1) ∧
    (∀ t1 t2 t3 : String, angleAtypes true t1 t2 t3 = angleAtypes true t3 t2 t1) ∧
    (∀ t1 t2 t3 t4 : String, t1 ≠ t4 →
      periodicTorsionAtypes false true t1 t2 t3 t4 =
        periodicTorsionAtypes false true t4 t3 t2 t1 ∧
      rbTorsionAtypes true t1 t2 t3 t4 = rbTorsionAtypes true t4 t3 t2 t1) := by
  refine ⟨?_, ?_, ?_⟩
  · intro t1 t2
    simp [bondAtypes, pySorted_pair_comm t1 t2]
  · intro t1 t2 t3
    simp [angleAtypes, pySorted_pair_comm t1 t3]
  · intro t1 t2 t3 t4 h
    rcases pyStrLt_total_of_ne h with hlt | hlt
    · have h2 : pyStrLt t4 t1 = false := pyStrLt_asymm hlt
      constructor <;> simp [periodicTorsionAtypes, rbTorsionAtypes, pyStrGt, hlt, h2]
    · have h2 : pyStrLt t1 t4 = false := pyStrLt_asymm hlt
      constructor <;> simp [periodicTorsionAtypes, rbTorsionAtypes, pyStrGt, hlt, h2]

/-- C1, witness for the amended theorem at concrete type names. -/
theorem c1_amended_witness :
    ("A" : String) ≠ "D" ∧
    periodicTorsionAtypes false true "A" "B" "C" "D" =
      periodicTorsionAtypes false true "D" "C" "B" "A" ∧
    rbTorsionAtypes true "A" "B" "C" "D" = rbTorsionAtypes true "D" "C" "B" "A" :=
  ⟨by decide, c1_amended.2.2 "A" "B" "C" "D" (by decide)⟩

/-! ### C2: improper-torsion canonicalization -/

/-- C2: in unique mode an improper's emitted type tuple is the central
(third-listed) atom's type first, followed by the types of the original
atoms 2, 1, 4 sorted lexicographically; the attributes of the emitted
`Improper` entry are exactly that tuple's `type1..type4` (followed by the
numeric attributes); and the spec's scenario `(H, N, C, O)` with atom3
central emits `(C, H, N, O)`. -/
theorem c2_improper_canonical :
    (∀ t1 t2 t3 t4 : String,
      periodicTorsionAtypes true true t1 t2 t3 t4 = t3 :: pySorted [t2, t1, t4]) ∧
    (∀ d : Dihedral, d.improper = true →
      (dihedralEntry d true).attrs =
        typeAttrs (d.atom3.type :: pySorted [d.atom2.type, d.atom1.type, d.atom4.type]) ++
        dihedralNumAttrs d) ∧
    periodicTorsionAtypes true true "H" "N" "C" "O" = ["C", "H", "N", "O"] := by
  refine ⟨fun t1 t2 t3 t4 => rfl, ?_, by decide⟩
  intro d h
  simp [dihedralEntry, h, periodicTorsionAtypes]

/-- C2, witness: the entry-level statement applied to the scenario's
improper torsion. -/
theorem c2_improper_canonical_witness :
    d0.improper = true ∧
    (dihedralEntry d0 true).attrs =
      typeAttrs (d0.atom3.type :: pySorted [d0.atom2.type, d0.atom1.type, d0.atom4.type]) ++
      dihedralNumAttrs d0 :=
  ⟨rfl, c2_improper_canonical.2.1 d0 rfl⟩

/-! ### C8: per-instance mode -/

/-- C8, counterexample: the claim as stated fails on the code.  For an
improper `(A, B, C, D)` in per-instance mode the emitted type tuple is
`(C, B, A, D)` — the central atom is swapped into front even when
`unique=False` — not the original order `(A, B, C, D)`. -/
theorem c8_counterexample : ¬ C8Statement := fun h =>
  absurd (h.2.2.1 true "A" "B" "C" "D") (by decide)

/-- C8, amended: in per-instance mode bonds, angles, proper torsions and
RB torsions keep their original type order and emit their atom indices in
order; an improper emits types and indices in the swapped positional
order `atom3, atom2, atom1, atom4` (types not re-sorted). -/
theorem c8_amended :
    (∀ t1 t2 : String, bondAtypes false t1 t2 = [t1, t2]) ∧
    (∀ t1 t2 t3 : String, angleAtypes false t1 t2 t3 = [t1, t2, t3]) ∧
    (∀ t1 t2 t3 t4 : String,
      periodicTorsionAtypes false false t1 t2 t3 t4 = [t1, t2, t3, t4]) ∧
    (∀ t1 t2 t3 t4 : String,
      periodicTorsionAtypes true false t1 t2 t3 t4 = [t3, t2, t1, t4]) ∧
    (∀ t1 t2 t3 t4 : String,
      rbTorsionAtypes false t1 t2 t3 t4 = [t1, t2, t3, t4]) ∧
    (∀ b : Bond,
      (bondEntry b false).attrs.lookup "id1" = some (AttrVal.z b.atom1.idx) ∧
      (bondEntry b false).attrs.lookup "id2" = some (AttrVal.z b.atom2.idx)) ∧
    (∀ a : Angle,
      (angleEntry a false).attrs.lookup "id1" = some (AttrVal.z a.atom1.idx) ∧
      (angleEntry a false).attrs.lookup "id2" = some (AttrVal.z a.atom2.idx) ∧
      (angleEntry a false).attrs.lookup "id3" = some (AttrVal.z a.atom3.idx)) ∧
    (∀ d : Dihedral, d.improper = false →
      (dihedralEntry d false).attrs.lookup "id1" = some (AttrVal.z d.atom1.idx) ∧
      (dihedralEntry d false).attrs.lookup "id2" = some (AttrVal.z d.atom2.idx) ∧
      (dihedralEntry d false).attrs.lookup "id3" = some (AttrVal.z d.atom3.idx) ∧
      (dihedralEntry d false).attrs.lookup "id4" = some (AttrVal.z d.atom4.idx)) ∧
    (∀ d : Dihedral, d.improper = true →
      (dihedralEntry d false).attrs.lookup "id1" = some (AttrVal.z d.atom3.idx) ∧
      (dihedralEntry d false).attrs.lookup "id2" = some (AttrVal.z d.atom2.idx) ∧
      (dihedralEntry d false).attrs.lookup "id3" = some (AttrVal.z d.atom1.idx) ∧
      (dihedralEntry d false).attrs.lookup "id4" = some (AttrVal.z d.atom4.idx)) ∧
    (∀ r : RBTorsion,
      (rbEntry r false).attrs.lookup "id1" = some (AttrVal.z r.atom1.idx) ∧
      (rbEntry r false).attrs.lookup "id2" = some (AttrVal.z r.atom2.idx) ∧
      (rbEntry r false).attrs.lookup "id3" = some (AttrVal.z r.atom3.idx) ∧
      (rbEntry r false).attrs.lookup "id4" = some (AttrVal.z r.atom4.idx)) := by
  refine ⟨fun t1 t2 => rfl, fun t1 t2 t3 => rfl, fun t1 t2 t3 t4 => rfl,
    fun t1 t2 t3 t4 => rfl, fun t1 t2 t3 t4 => rfl, ?_, ?_, ?_, ?_, ?_⟩
  · exact fun b => ⟨rfl, rfl⟩
  · exact fun a => ⟨rfl, rfl, rfl⟩
  · intro d h
    simp [dihedralEntry, h, List.lookup]
  · intro d h
    simp [dihedralEntry, h, List.lookup]
  · exact fun r => ⟨rfl, rfl, rfl, rfl⟩

/-- C8, witness: the two hypothesis-guarded improper/proper clauses of
the amended theorem applied to the concrete torsions over types
`(H, N, C, O)`. -/
theorem c8_amended_witness :
    d0proper.improper = false ∧ d0.improper = true ∧
    (dihedralEntry d0proper false).attrs.lookup "id1" =
      some (AttrVal.z d0proper.atom1.idx) ∧
    (dihedralEntry d0 false).attrs.lookup "id1" = some (AttrVal.z d0.atom3.idx) :=
  ⟨rfl, rfl, (c8_amended.2.2.2.2.2.2.2.1 d0proper rfl).1,
    (c8_amended.2.2.2.2.2.2.2.2.1 d0 rfl).1⟩

/-! ### C4: the structural-equality predicate and tags -/

/-- C4 (code bug): the claim matches the intent but not the code.  Line
231 of the source reads `if e1.tag != e1.tag: return False`, comparing
`e1`'s tag against itself, so `_elements_equal` never inspects the second
element's tag: two elements that differ only in their tag (here `Bond`
vs. `Angle`, with identical text, tail, attributes and children) compare
equal, where the claim and the spec require `False`. -/
theorem c4_tag_not_compared :
    ("Bond" : String) ≠ "Angle" ∧
    _elements_equal (.mk "Bond" none none [("type1", "A")] [])
      (some (.mk "Angle" none none [("type1", "A")] [])) = true :=
  ⟨by decide, by decide⟩

/-! ### C6: Coulomb 1-4 scale inference -/

/-- C6: collecting every adjustment's `chgscale`, the inference returns
the first one exactly when the distinct values number one, and otherwise
fails with the inconsistent-Coulomb-scaling error. -/
theorem c6_coulomb14scale (s : Structure) :
    ((s.adjusts.map fun t => t.type.chgscale).dedup.length = 1 →
      _infer_coulomb14scale s =
        .ok ((s.adjusts.map fun t => t.type.chgscale).headD 0)) ∧
    ((s.adjusts.map fun t => t.type.chgscale).dedup.length ≠ 1 →
      _infer_coulomb14scale s = .error .coulombInconsistent) := by
  constructor <;> intro h <;> simp [_infer_coulomb14scale, h]

/-- C6, witness: the spec's scenario `chgscale = {0.5, 0.5, 0.83}` has two
distinct values, so the inference fails with the Coulomb error. -/
theorem c6_coulomb14scale_witness :
    (s6.adjusts.map fun t => t.type.chgscale).dedup.length ≠ 1 ∧
    _infer_coulomb14scale s6 = .error .coulombInconsistent := by
  have hmap : (s6.adjusts.map fun t => t.type.chgscale) = [0.5, 0.5, 0.83] := rfl
  have hd : ([0.5, 0.5, 0.83] : List ℚ).dedup = [0.5, 0.83] := by
    norm_num [List.dedup_cons_of_mem, List.dedup_cons_of_not_mem, List.dedup_nil]
  have hlen : (s6.adjusts.map fun t => t.type.chgscale).dedup.length ≠ 1 := by
    rw [hmap, hd]; simp
  exact ⟨hlen, (c6_coulomb14scale s6).2 hlen⟩

/-! ### C10: empty adjustment lists -/

/-- C10: with zero 1-4 adjustments each inference sees zero distinct
values (not one), so both raise, and a parametrized topology with no
adjustments can never be written — `write_foyer` aborts with the Coulomb
error (the first inference to run). -/
theorem c10_empty_adjusts (s : Structure) (ff : Option Forcefield) (u : Bool)
    (h : s.adjusts = []) :
    _infer_coulomb14scale s = .error .coulombInconsistent ∧
    _infer_lj14scale s = .error (.ljInconsistent []) ∧
    (isParametrized s = true → write_foyer s ff u = .error .coulombInconsistent) := by
  have hc : _infer_coulomb14scale s = .error .coulombInconsistent := by
    simp [_infer_coulomb14scale, h]
  have hl : _infer_lj14scale s = .error (.ljInconsistent []) := by
    simp [_infer_lj14scale, h, lj14scaleAux, pySortedQ, List.insertionSort]
  refine ⟨hc, hl, ?_⟩
  intro hp
  simp [write_foyer, hp, _write_atoms, hc]

/-- C10, witness: a topology with one parametrized bond and no
adjustments cannot be written. -/
theorem c10_empty_adjusts_witness :
    s10.adjusts = [] ∧ isParametrized s10 = true ∧
    write_foyer s10 none true = .error .coulombInconsistent :=
  ⟨rfl, rfl, (c10_empty_adjusts s10 none true rfl).2.2 rfl⟩

/-! ### C5: LJ 1-4 scale inference -/

theorem lj14scaleAux_ok_of_close (l : List Adjust)
    (h : ∀ a ∈ l, npIsClose a.type.sigma (expectedSigma a) = true) :
    lj14scaleAux l = .ok (l.map ljPairScale) := by
  induction l with
  | nil => rfl
  | cons a rest ih =>
    have ha := h a (List.mem_cons_self a rest)
    have hrest := ih fun x hx => h x (List.mem_cons_of_mem a hx)
    simp [lj14scaleAux, ha, hrest]

theorem lj14scaleAux_error_of_bad (l : List Adjust)
    (h : ∃ a ∈ l, npIsClose a.type.sigma (expectedSigma a) = false) :
    ∃ a ∈ l, npIsClose a.type.sigma (expectedSigma a) = false ∧
      lj14scaleAux l = .error (.sigmaMismatch a a.type.sigma (expectedSigma a)) := by
  induction l with
  | nil => simp at h
  | cons a rest ih =>
    by_cases ha : npIsClose a.type.sigma (expectedSigma a) = false
    · exact ⟨a, List.mem_cons_self a rest, ha, by simp [lj14scaleAux, ha]⟩
    · have ha' : npIsClose a.type.sigma (expectedSigma a) = true := by simpa using ha
      obtain ⟨b, hb, hbad⟩ :
          ∃ b ∈ rest, npIsClose b.type.sigma (expectedSigma b) = false := by
        rcases h with ⟨c, hc, hcb⟩
        rcases List.mem_cons.1 hc with rfl | hc'
        · exact absurd hcb (by simp [ha'])
        · exact ⟨c, hc', hcb⟩
      obtain ⟨b', hb', hbad', herr⟩ := ih ⟨b, hb, hbad⟩
      exact ⟨b', List.mem_cons_of_mem a hb', hbad',
        by simp [lj14scaleAux, ha', herr]⟩

/-- C5: the LJ 1-4 inference fails with a sigma-mismatch error carrying
the offending pair and both sigma values as soon as some adjustment's
stored sigma is not `numpy.isclose` to the Lorentz–Berthelot mean of its
two atoms' own sigmas; with all sigmas close, it returns the unrounded
first per-pair epsilon scale exactly when the scales rounded to 8 decimal
places have a single distinct value, and otherwise fails carrying the
sorted set of distinct rounded scales. -/
theorem c5_lj14scale (s : Structure) :
    ((∃ a ∈ s.adjusts, npIsClose a.type.sigma (expectedSigma a) = false) →
      ∃ a ∈ s.adjusts, npIsClose a.type.sigma (expectedSigma a) = false ∧
        _infer_lj14scale s = .error (.sigmaMismatch a a.type.sigma (expectedSigma a))) ∧
    ((∀ a ∈ s.adjusts, npIsClose a.type.sigma (expectedSigma a) = true) →
      (((s.adjusts.map ljPairScale).map npRound8).dedup.length = 1 →
        _infer_lj14scale s = .ok ((s.adjusts.map ljPairScale).headD 0)) ∧
      (((s.adjusts.map ljPairScale).map npRound8).dedup.length ≠ 1 →
        _infer_lj14scale s = .error (.ljInconsistent
          (pySortedQ ((s.adjusts.map ljPairScale).map npRound8).dedup)))) := by
  constructor
  · intro h
    obtain ⟨a, ha, hbad, herr⟩ := lj14scaleAux_error_of_bad s.adjusts h
    exact ⟨a, ha, hbad, by simp [_infer_lj14scale, herr]⟩
  · intro h
    have hok := lj14scaleAux_ok_of_close s.adjusts h
    constructor <;> intro hlen <;> rw [List.map_map] at hlen <;>
      simp [_infer_lj14scale, hok, pySortedQ, List.length_insertionSort, hlen]

/-- C5, witness: one adjustment between two atoms of unit sigma and unit
epsilon, storing the Lorentz–Berthelot sigma, passes the closeness check,
yields one distinct rounded scale, and the inference succeeds with the
first unrounded scale. -/
theorem c5_lj14scale_witness :
    (∀ a ∈ s5.adjusts, npIsClose a.type.sigma (expectedSigma a) = true) ∧
    ((s5.adjusts.map ljPairScale).map npRound8).dedup.length = 1 ∧
    _infer_lj14scale s5 = .ok ((s5.adjusts.map ljPairScale).headD 0) := by
  have h1 : ∀ a ∈ s5.adjusts, npIsClose a.type.sigma (expectedSigma a) = true := by
    intro a ha
    have : a = ⟨atomNamed "A" 0, atomNamed "B" 1, ⟨1, 1, 1/2⟩⟩ := by
      simpa [s5] using ha
    subst this
    norm_num [npIsClose, expectedSigma, atomNamed]
  have h2 : ((s5.adjusts.map ljPairScale).map npRound8).dedup.length = 1 := by
    simp [s5, List.dedup_cons_of_not_mem]
  exact ⟨h1, h2, ((c5_lj14scale s5).2 h1).1 h2⟩

/-! ### C9: the unparametrized-topology precondition -/

theorem _infer_coulomb14scale_ne_unparametrized (s : Structure) :
    _infer_coulomb14scale s ≠ .error .unparametrized := by
  unfold _infer_coulomb14scale
  by_cases h : (s.adjusts.map fun t => t.type.chgscale).dedup.length = 1 <;> simp [h]

theorem lj14scaleAux_ne_unparametrized (l : List Adjust) :
    lj14scaleAux l ≠ .error .unparametrized := by
  induction l with
  | nil => simp [lj14scaleAux]
  | cons a rest ih =>
    simp only [lj14scaleAux]
    by_cases ha : npIsClose a.type.sigma (expectedSigma a) = false
    · simp [ha]
    · rw [if_neg ha]
      cases hr : lj14scaleAux rest with
      | error e =>
        rw [hr] at ih
        simpa using ih
      | ok scales => simp

theorem _infer_lj14scale_ne_unparametrized (s : Structure) :
    _infer_lj14scale s ≠ .error .unparametrized := by
  unfold _infer_lj14scale
  cases hr : lj14scaleAux s.adjusts with
  | error e =>
    have h := lj14scaleAux_ne_unparametrized s.adjusts
    rw [hr] at h
    simpa using h
  | ok scales =>
    by_cases hlen : (pySortedQ (scales.map npRound8).dedup).length = 1 <;> simp [hlen]

theorem _write_atoms_ne_unparametrized (s : Structure) (ff : Option Forcefield)
    (u : Bool) : _write_atoms s ff u ≠ .error .unparametrized := by
  unfold _write_atoms
  cases hc : _infer_coulomb14scale s with
  | error e =>
    have h := _infer_coulomb14scale_ne_unparametrized s
    rw [hc] at h
    simpa using h
  | ok c =>
    cases hl : _infer_lj14scale s with
    | error e =>
      have h := _infer_lj14scale_ne_unparametrized s
      rw [hl] at h
      simpa using h
    | ok l => simp

theorem isParametrized_false_iff (s : Structure) :
    isParametrized s = false ↔
      (s.bonds = [] ∨ ∃ b bs, s.bonds = b :: bs ∧ b.type = none) := by
  cases hb : s.bonds with
  | nil => simp [isParametrized, firstHasType, hb]
  | cons b bs =>
    cases hbt : b.type with
    | none => simp [isParametrized, firstHasType, hb, hbt]
    | some bt => simp [isParametrized, firstHasType, hb, hbt]

/-- C9: `write_foyer` fails with the unparametrized error — raised before
the root element is even created, so with nothing built — exactly when the
topology has no bonds or its first bond carries no term type; in
particular it does so on every topology with zero bonds.  (The two scale
inferences can also abort the write, but only later, inside
`_write_atoms`, with distinct error values.) -/
theorem c9_unparametrized (s : Structure) (ff : Option Forcefield) (u : Bool) :
    (write_foyer s ff u = .error .unparametrized ↔
      (s.bonds = [] ∨ ∃ b bs, s.bonds = b :: bs ∧ b.type = none)) ∧
    (s.bonds = [] → write_foyer s ff u = .error .unparametrized) := by
  have hiff := isParametrized_false_iff s
  refine ⟨⟨?_, ?_⟩, ?_⟩
  · intro h
    rw [← hiff]
    by_contra hne
    have hp : isParametrized s = true := by simpa using hne
    simp only [write_foyer, hp] at h
    rw [if_neg (by simp)] at h
    cases ha : _write_atoms s ff u with
    | error e =>
      rw [ha] at h
      simp only [Except.error.injEq] at h
      exact _write_atoms_ne_unparametrized s ff u (h ▸ ha)
    | ok p =>
      obtain ⟨a1, a2⟩ := p
      rw [ha] at h
      simp at h
  · intro h
    have hp : isParametrized s = false := hiff.mpr h
    simp [write_foyer, hp]
  · intro h
    have hp : isParametrized s = false := hiff.mpr (Or.inl h)
    simp [write_foyer, hp]

/-- C9, witness: the zero-bond topology fails with the unparametrized
error and nothing is emitted. -/
theorem c9_unparametrized_witness :
    s9.bonds = [] ∧ write_foyer s9 none true = .error .unparametrized :=
  ⟨rfl, (c9_unparametrized s9 none true).2 rfl⟩

/-! ### C3: scoping of the deduplication pass -/

theorem elements_equal_none (e : XmlElem) : _elements_equal e none = false := rfl

theorem dedupScan_fst_of_not_equal (l : List XmlElem) (p : Option XmlElem)
    (h : ∀ e ∈ l, _elements_equal e p = false) :
    (dedupScan p l).1 = (dedupScan none l).1 := by
  cases l with
  | nil => rfl
  | cons e es =>
    have he := h e (List.mem_cons_self e es)
    simp [dedupScan, he, elements_equal_none]

theorem dedupScan_snd_mem (l : List XmlElem) :
    ∀ p : Option XmlElem,
      (dedupScan p l).2 = p ∨ ∃ e ∈ l, (dedupScan p l).2 = some e := by
  induction l with
  | nil => intro p; exact Or.inl rfl
  | cons e es ih =>
    intro p
    simp only [dedupScan]
    by_cases he : _elements_equal e p = true
    · rw [if_pos he]
      rcases ih p with h | ⟨e', he', h⟩
      · exact Or.inl h
      · exact Or.inr ⟨e', List.mem_cons_of_mem e he', h⟩
    · rw [if_neg he]
      rcases ih (some e) with h | ⟨e', he', h⟩
      · exact Or.inr ⟨e, List.mem_cons_self e es, h⟩
      · exact Or.inr ⟨e', List.mem_cons_of_mem e he', h⟩

theorem crossDisjoint_cons {c : XmlElem} {rest : List XmlElem}
    (h : crossDisjoint (c :: rest) = true) :
    (∀ c' ∈ rest, ∀ e ∈ c.children, ∀ e' ∈ c'.children,
      elementsEqualSome e' e = false) ∧ crossDisjoint rest = true := by
  simp only [crossDisjoint, Bool.and_eq_true, List.all_eq_true] at h
  obtain ⟨h1, h2⟩ := h
  refine ⟨?_, h2⟩
  intro c' hc' e he e' he'
  have := h1 c' hc' e he e' he'
  simpa using this

theorem sortChildren_mem {c : XmlElem} {e : XmlElem} (h : e ∈ sortChildren c) :
    e ∈ c.children :=
  (List.perm_insertionSort _ c.children).subset h

theorem processSections_eq_scoped (u : Bool) (cs : List XmlElem) :
    ∀ p : Option XmlElem,
      crossDisjoint cs = true →
      (∀ c ∈ cs, ∀ e ∈ c.children, _elements_equal e p = false) →
      processSections u p cs = processSectionsScoped u cs := by
  induction cs with
  | nil => intro p _ _; rfl
  | cons c rest ih =>
    intro p hcross hsafe
    obtain ⟨hhead, htail⟩ := crossDisjoint_cons hcross
    by_cases hskip : u = false ∧ c.tag ≠ "AtomTypes"
    · simp only [processSections, processSectionsScoped, if_pos hskip]
      rw [ih p htail fun c' hc' e he => hsafe c' (List.mem_cons_of_mem c hc') e he]
    · simp only [processSections, processSectionsScoped, if_neg hskip]
      have hsafe_c : ∀ e ∈ sortChildren c, _elements_equal e p = false :=
        fun e he => hsafe c (List.mem_cons_self c rest) e (sortChildren_mem he)
      rw [dedupScan_fst_of_not_equal _ p hsafe_c]
      congr 1
      apply ih _ htail
      rcases dedupScan_snd_mem (sortChildren c) p with hp2 | ⟨e, he, hp2⟩
      · rw [hp2]
        exact fun c' hc' e he => hsafe c' (List.mem_cons_of_mem c hc') e he
      · rw [hp2]
        intro c' hc' e' he'
        exact hhead c' hc' e (sortChildren_mem he) e' he'

/-- C3, counterexample: the claim as stated fails on the code.  The `prev`
reference of `_remove_duplicate_elements` is initialized once, before the
loop over sections, and never reset: on a tree whose two sections each
hold one structurally identical entry, the second section's first (and
only) entry is compared against the last kept entry of the *first*
section and dropped, where per-section scoping would keep it. -/
theorem c3_counterexample : ¬ C3Statement := fun h => by
  have h2 := h badRoot true
  have hL : _remove_duplicate_elements badRoot true =
      .mk "ForceField" none none []
        [.mk "HarmonicBondForce" none none [] [entryAB],
         .mk "HarmonicAngleForce" none none [] []] := rfl
  have hR : removeDuplicatesScoped badRoot true =
      .mk "ForceField" none none []
        [.mk "HarmonicBondForce" none none [] [entryAB],
         .mk "HarmonicAngleForce" none none [] [entryAB]] := rfl
  rw [hL, hR] at h2
  simp [entryAB] at h2

/-- C3, amended: the "last kept entry" reference *does* carry over from
one processed section into the next, so an entry can be dropped as a
duplicate of an entry of an earlier section; but whenever no two entries
of different sections are structurally equal under `_elements_equal` —
which holds of every tree this writer emits, their sections' entries
having disjoint attribute-key sets — the pass coincides with the
per-section-scoped deduplication the claim describes. -/
theorem c3_amended (root : XmlElem) (unique : Bool)
    (h : crossDisjoint root.children = true) :
    _remove_duplicate_elements root unique = removeDuplicatesScoped root unique := by
  unfold _remove_duplicate_elements removeDuplicatesScoped
  rw [processSections_eq_scoped unique root.children none h fun c _ e _ => rfl]

/-- C3, witness: on a tree whose two sections hold structurally distinct
entries the pass agrees with its per-section-scoped variant. -/
theorem c3_amended_witness :
    crossDisjoint goodRoot.children = true ∧
    _remove_duplicate_elements goodRoot true = removeDuplicatesScoped goodRoot true :=
  ⟨rfl, c3_amended goodRoot true rfl⟩

/-! ### C7: the scale-and-round table -/

theorem pyRound_eq_zero (x : ℚ) (n : ℕ) (h1 : 0 ≤ x * 10 ^ n)
    (h2 : x * 10 ^ n < 1 / 2) : pyRound x n = 0 := by
  have hfl : ⌊x * 10 ^ n⌋ = 0 := by
    rw [Int.floor_eq_zero_iff, Set.mem_Ico]
    exact ⟨h1, by linarith⟩
  have hfr : Int.fract (x * 10 ^ n) = x * 10 ^ n := by
    rw [Int.fract, hfl]
    simp
  have hne : Int.fract (x * 10 ^ n) ≠ 1 / 2 := by
    rw [hfr]
    exact ne_of_lt h2
  have hro : round (x * 10 ^ n) = 0 := by
    rw [round_eq, Int.floor_eq_zero_iff, Set.mem_Ico]
    constructor <;> linarith
  simp only [pyRound, roundHalfToEven]
  rw [if_neg hne, hro]
  simp

theorem pySorted_length (l : List String) : (pySorted l).length = l.length :=
  List.length_insertionSort _ _

theorem typeKey1 : "type" ++ toString 1 = "type1" := by decide

theorem typeKey2 : "type" ++ toString 2 = "type2" := by decide

theorem typeKey3 : "type" ++ toString 3 = "type3" := by decide

theorem typeKey4 : "type" ++ toString 4 = "type4" := by decide

theorem typeAttrs_pair (x y : String) :
    typeAttrs [x, y] = [("type1", AttrVal.s x), ("type2", AttrVal.s y)] := by
  simp only [typeAttrs]
  rw [show ([x, y] : List String).length = 2 from rfl,
    show List.range 2 = [0, 1] from by decide]
  simp [show "type" ++ toString (0 + 1) = "type1" from by decide,
    show "type" ++ toString (1 + 1) = "type2" from by decide]

theorem typeAttrs_triple (x y z : String) :
    typeAttrs [x, y, z] =
      [("type1", AttrVal.s x), ("type2", AttrVal.s y), ("type3", AttrVal.s z)] := by
  simp only [typeAttrs]
  rw [show ([x, y, z] : List String).length = 3 from rfl,
    show List.range 3 = [0, 1, 2] from by decide]
  simp [show "type" ++ toString (0 + 1) = "type1" from by decide,
    show "type" ++ toString (1 + 1) = "type2" from by decide,
    show "type" ++ toString (2 + 1) = "type3" from by decide]

theorem typeAttrs_quad (x y z w : String) :
    typeAttrs [x, y, z, w] =
      [("type1", AttrVal.s x), ("type2", AttrVal.s y), ("type3", AttrVal.s z),
       ("type4", AttrVal.s w)] := by
  simp only [typeAttrs]
  rw [show ([x, y, z, w] : List String).length = 4 from rfl,
    show List.range 4 = [0, 1, 2, 3] from by decide]
  simp [show "type" ++ toString (0 + 1) = "type1" from by decide,
    show "type" ++ toString (1 + 1) = "type2" from by decide,
    show "type" ++ toString (2 + 1) = "type3" from by decide,
    show "type" ++ toString (3 + 1) = "type4" from by decide]

theorem cKey0 : "c" ++ toString 0 = "c0" := by decide

theorem cKey1 : "c" ++ toString 1 = "c1" := by decide

theorem cKey2 : "c" ++ toString 2 = "c2" := by decide

theorem cKey3 : "c" ++ toString 3 = "c3" := by decide

theorem cKey4 : "c" ++ toString 4 = "c4" := by decide

theorem cKey5 : "c" ++ toString 5 = "c5" := by decide

theorem rbNumAttrs_eq (r : RBTorsion) :
    rbNumAttrs r =
      [("c0", AttrVal.q (pyRound ((r.type.getD ⟨0, 0, 0, 0, 0, 0⟩).c0 * 4.184) 4)),
       ("c1", AttrVal.q (pyRound ((r.type.getD ⟨0, 0, 0, 0, 0, 0⟩).c1 * 4.184) 4)),
       ("c2", AttrVal.q (pyRound ((r.type.getD ⟨0, 0, 0, 0, 0, 0⟩).c2 * 4.184) 4)),
       ("c3", AttrVal.q (pyRound ((r.type.getD ⟨0, 0, 0, 0, 0, 0⟩).c3 * 4.184) 4)),
       ("c4", AttrVal.q (pyRound ((r.type.getD ⟨0, 0, 0, 0, 0, 0⟩).c4 * 4.184) 4)),
       ("c5", AttrVal.q (pyRound ((r.type.getD ⟨0, 0, 0, 0, 0, 0⟩).c5 * 4.184) 4))] := by
  simp only [rbNumAttrs]
  rw [show List.range 6 = [0, 1, 2, 3, 4, 5] from by decide]
  simp [show "c" ++ toString 0 = "c0" from by decide,
    show "c" ++ toString 1 = "c1" from by decide,
    show "c" ++ toString 2 = "c2" from by decide,
    show "c" ++ toString 3 = "c3" from by decide,
    show "c" ++ toString 4 = "c4" from by decide,
    show "c" ++ toString 5 = "c5" from by decide, rbC]

theorem exists_pair_of_length_two {l : List String} (h : l.length = 2) :
    ∃ a b, l = [a, b] := by
  rcases l with _ | ⟨a, l⟩
  · simp at h
  rcases l with _ | ⟨b, l⟩
  · simp at h
  rcases l with _ | ⟨c, l⟩
  · exact ⟨a, b, rfl⟩
  · simp at h

theorem exists_triple_of_length_three {l : List String} (h : l.length = 3) :
    ∃ a b c, l = [a, b, c] := by
  rcases l with _ | ⟨a, l⟩
  · simp at h
  obtain ⟨b, c, hbc⟩ := exists_pair_of_length_two (l := l) (by simpa using h)
  exact ⟨a, b, c, by rw [hbc]⟩

theorem exists_quad_of_length_four {l : List String} (h : l.length = 4) :
    ∃ a b c d, l = [a, b, c, d] := by
  rcases l with _ | ⟨a, l⟩
  · simp at h
  obtain ⟨b, c, d, hbcd⟩ := exists_triple_of_length_three (l := l) (by simpa using h)
  exact ⟨a, b, c, d, by rw [hbcd]⟩

theorem bondAtypes_length (u : Bool) (t1 t2 : String) :
    (bondAtypes u t1 t2).length = 2 := by
  cases u <;> simp [bondAtypes, pySorted_length]

theorem angleAtypes_length (u : Bool) (t1 t2 t3 : String) :
    (angleAtypes u t1 t2 t3).length = 3 := by
  cases u <;>
    simp [angleAtypes, pySorted_length, List.length_take, List.length_drop]

theorem periodicTorsionAtypes_length (improper u : Bool) (t1 t2 t3 t4 : String) :
    (periodicTorsionAtypes improper u t1 t2 t3 t4).length = 4 := by
  cases improper <;> cases u <;>
    simp [periodicTorsionAtypes, pySorted_length, apply_ite List.length]

theorem rbTorsionAtypes_length (u : Bool) (t1 t2 t3 t4 : String) :
    (rbTorsionAtypes u t1 t2 t3 t4).length = 4 := by
  cases u <;> simp [rbTorsionAtypes, apply_ite List.length]

/-- C7, counterexample: the claim as stated fails on the code.  The
`mass` attribute of an `AtomTypes` entry is numeric and written raw
(`str(atom.mass)`, line 78 with line 95), with no scale and no round: an
atom of mass `10 ^ (-11)` is emitted with a value that no round step of
the table leaves fixed, so that attribute cannot have passed through the
table. -/
theorem c7_counterexample : ¬ C7Statement := fun h => by
  have hq := (h none atomM b10 a7 d0 r7 true).1
  have hmem : (("mass", AttrVal.q (1 / 10 ^ 11)) : String × AttrVal) ∈
      (typeEntry none atomM).attrs := by
    simp [typeEntry, atomM, ffLookup]
  have htab := hq _ hmem (1 / 10 ^ 11) rfl
  have hz : ∀ n : ℕ, n ≤ 10 → pyRound (1 / 10 ^ 11 : ℚ) n = 0 := by
    intro n hn
    have hpow : (10 : ℚ) ^ n ≤ 10 ^ 10 := by
      apply pow_le_pow_right₀ (by norm_num) hn
    apply pyRound_eq_zero
    · positivity
    · calc (1 / 10 ^ 11 : ℚ) * 10 ^ n ≤ (1 / 10 ^ 11) * 10 ^ 10 := by
            apply mul_le_mul_of_nonneg_left hpow (by norm_num)
        _ < 1 / 2 := by norm_num
  have hzz : (0 : ℚ) ≠ 1 / 10 ^ 11 := by norm_num
  rcases htab with h1 | h1 | h1 | h1 | h1 | h1 <;>
    rw [hz _ (by norm_num)] at h1 <;> exact hzz h1

/-- C7, amended: the listed fields are emitted exactly through the §4.1
scale-and-round table — charge and sigma identity at 4 places, epsilon
`×4.184` at 6, bond length `÷10` at 4, bond k `×4.184×200` at 1, angle
equilibrium `×π/180` at 10, angle k `×4.184×2` at 3, torsion phase
`×π/180` at 8, torsion k `×4.184` at 3, RB coefficients `×4.184` at 4 —
but the atom mass, the torsion periodicity and the two inferred 1-4 scale
attributes (and, per instance, the integer atom indices) are written raw,
with no transform and no round. -/
theorem c7_amended :
    (∀ (a : Atom) (u : Bool),
      (nbEntry a u).attrs.lookup "charge" = some (AttrVal.q (pyRound a.charge 4)) ∧
      (nbEntry a u).attrs.lookup "sigma" =
        some (AttrVal.q (pyRound a.atom_type.sigma 4)) ∧
      (nbEntry a u).attrs.lookup "epsilon" =
        some (AttrVal.q (pyRound (a.atom_type.epsilon * 4.184) 6))) ∧
    (∀ (ff : Option Forcefield) (a : Atom),
      (typeEntry ff a).attrs.lookup "mass" = some (AttrVal.q a.mass)) ∧
    (∀ (b : Bond) (bt : BondType) (u : Bool), b.type = some bt →
      (bondEntry b u).attrs.lookup "length" =
        some (AttrVal.q (pyRound (bt.req / 10) 4)) ∧
      (bondEntry b u).attrs.lookup "k" =
        some (AttrVal.q (pyRound (bt.k * 4.184 * 200) 1))) ∧
    (∀ (an : Angle) (at' : AngleType) (u : Bool), an.type = some at' →
      (angleEntry an u).attrs.lookup "angle" =
        some (AttrVal.q (pyRound (at'.theteq * (npPi / 180)) 10)) ∧
      (angleEntry an u).attrs.lookup "k" =
        some (AttrVal.q (pyRound (at'.k * 4.184 * 2) 3))) ∧
    (∀ (d : Dihedral) (dt : DihedralType) (u : Bool), d.type = some dt →
      (dihedralEntry d u).attrs.lookup "periodicity1" = some (AttrVal.z dt.per) ∧
      (dihedralEntry d u).attrs.lookup "phase1" =
        some (AttrVal.q (pyRound (dt.phase * (npPi / 180)) 8)) ∧
      (dihedralEntry d u).attrs.lookup "k1" =
        some (AttrVal.q (pyRound (dt.phi_k * 4.184) 3))) ∧
    (∀ (r : RBTorsion) (rt : RBTorsionType) (u : Bool), r.type = some rt →
      (rbEntry r u).attrs.lookup "c0" = some (AttrVal.q (pyRound (rt.c0 * 4.184) 4)) ∧
      (rbEntry r u).attrs.lookup "c1" = some (AttrVal.q (pyRound (rt.c1 * 4.184) 4)) ∧
      (rbEntry r u).attrs.lookup "c2" = some (AttrVal.q (pyRound (rt.c2 * 4.184) 4)) ∧
      (rbEntry r u).attrs.lookup "c3" = some (AttrVal.q (pyRound (rt.c3 * 4.184) 4)) ∧
      (rbEntry r u).attrs.lookup "c4" = some (AttrVal.q (pyRound (rt.c4 * 4.184) 4)) ∧
      (rbEntry r u).attrs.lookup "c5" = some (AttrVal.q (pyRound (rt.c5 * 4.184) 4))) ∧
    (∀ (s : Structure) (ff : Option Forcefield) (u : Bool) (c : ℚ) (l : ℝ),
      _infer_coulomb14scale s = .ok c → _infer_lj14scale s = .ok l →
      ∃ p, _write_atoms s ff u = .ok p ∧
        p.2.attrs = [("coulomb14scale", AttrVal.q c), ("lj14scale", AttrVal.r l)]) := by
  refine ⟨?_, ?_, ?_, ?_, ?_, ?_, ?_⟩
  · intro a u
    cases u <;> exact ⟨rfl, rfl, rfl⟩
  · intro ff a
    rfl
  · intro b bt u h
    obtain ⟨x, y, hxy⟩ :=
      exists_pair_of_length_two (bondAtypes_length u b.atom1.type b.atom2.type)
    cases u <;>
      simp [bondEntry, bondNumAttrs, h, hxy, typeAttrs_pair, List.lookup,
        typeKey1, typeKey2]
  · intro an at' u h
    obtain ⟨x, y, z, hxyz⟩ := exists_triple_of_length_three
      (angleAtypes_length u an.atom1.type an.atom2.type an.atom3.type)
    cases u <;>
      simp [angleEntry, angleNumAttrs, h, hxyz, typeAttrs_triple, List.lookup,
        typeKey1, typeKey2, typeKey3]
  · intro d dt u h
    cases hi : d.improper
    · obtain ⟨x, y, z, w, hx⟩ := exists_quad_of_length_four
        (periodicTorsionAtypes_length false u
          d.atom1.type d.atom2.type d.atom3.type d.atom4.type)
      cases u <;>
        simp [dihedralEntry, dihedralNumAttrs, h, hi, hx, typeAttrs_quad, List.lookup,
          typeKey1, typeKey2, typeKey3, typeKey4]
    · obtain ⟨x, y, z, w, hx⟩ := exists_quad_of_length_four
        (periodicTorsionAtypes_length true u
          d.atom1.type d.atom2.type d.atom3.type d.atom4.type)
      cases u <;>
        simp [dihedralEntry, dihedralNumAttrs, h, hi, hx, typeAttrs_quad, List.lookup,
          typeKey1, typeKey2, typeKey3, typeKey4]
  · intro r rt u h
    obtain ⟨x, y, z, w, hx⟩ := exists_quad_of_length_four
      (rbTorsionAtypes_length u r.atom1.type r.atom2.type r.atom3.type r.atom4.type)
    cases u <;>
      simp [rbEntry, rbNumAttrs_eq, h, hx, typeAttrs_quad, List.lookup,
        typeKey1, typeKey2, typeKey3, typeKey4, cKey0, cKey1, cKey2, cKey3,
        cKey4, cKey5, rbC]
  · intro s ff u c l hc hl
    refine ⟨({ tag := "AtomTypes", attrs := [],
               children := s.atoms.map (typeEntry ff) },
             { tag := "NonbondedForce",
               attrs := [("coulomb14scale", AttrVal.q c), ("lj14scale", AttrVal.r l)],
               children := s.atoms.map fun a => nbEntry a u }), ?_, rfl⟩
    simp [_write_atoms, hc, hl]

/-- C7, witness for the amended theorem: the table rows evaluated on the
concrete parametrized terms. -/
theorem c7_amended_witness :
    b10.type = some ⟨1, 1⟩ ∧ a7.type = some ⟨1, 1⟩ ∧ d0.type = some ⟨1, 0, 0⟩ ∧
    r7.type = some ⟨1, 1, 1, 1, 1, 1⟩ ∧
    (bondEntry b10 true).attrs.lookup "length" =
      some (AttrVal.q (pyRound ((1 : ℚ) / 10) 4)) ∧
    (angleEntry a7 true).attrs.lookup "angle" =
      some (AttrVal.q (pyRound ((1 : ℚ) * (npPi / 180)) 10)) ∧
    (dihedralEntry d0 true).attrs.lookup "periodicity1" = some (AttrVal.z 1) ∧
    (rbEntry r7 true).attrs.lookup "c0" =
      some (AttrVal.q (pyRound ((1 : ℚ) * 4.184) 4)) :=
  ⟨rfl, rfl, rfl, rfl,
   (c7_amended.2.2.1 b10 ⟨1, 1⟩ true rfl).1,
   (c7_amended.2.2.2.1 a7 ⟨1, 1⟩ true rfl).1,
   (c7_amended.2.2.2.2.1 d0 ⟨1, 0, 0⟩ true rfl).1,
   (c7_amended.2.2.2.2.2.1 r7 ⟨1, 1, 1, 1, 1, 1⟩ true rfl).1⟩

end Foyer
